import Mathlib

/-!
Shallow embedding of the anchor-version-detector tool (src/src/main.rs).

The tool accumulates a `ProjectVersions` record by probing directories for
manifest files, merges partial results while walking the tree, and finally
fills gaps from a compiled-in compatibility table.

Modelling conventions:
* Rust `Option<String>` becomes `Option String`; `PathBuf` becomes `String`.
* Functions that take `&mut ProjectVersions` become `ProjectVersions →
  ProjectVersions` (or a pair with the `Result` value when the Rust function
  also returns `Result<()>`, so that the state left behind on the error path
  stays observable).
* The external `toml` crate's deserialisation is abstracted as a parameter
  (`tomlParse : String → Option _`): a library call, not code of this
  repository.  Everything downstream of that call is embedded faithfully.
* File-system reads are embedded as a `lookup : String → Option String`
  (file name to contents when the file exists) for the single-directory
  toolchain-file loop, and as an `FsTree` carrying each directory's probe
  result for the recursive walk.
-/

/-- Rust `str::starts_with(prefix)`: modelled as a character-list prefix
test (for valid UTF-8, a byte-string prefix consisting of whole characters
is the same thing as a character-sequence prefix). -/
def strStartsWith (s pre : String) : Bool :=
  pre.data.isPrefixOf s.data

/-- Rust `str::trim`: drops leading and trailing whitespace characters.
`Char.isWhitespace` covers the ASCII whitespace that the inputs in play
use; Rust additionally trims non-ASCII Unicode whitespace. -/
def strTrim (s : String) : String :=
  String.mk (((s.data.dropWhile Char.isWhitespace).reverse.dropWhile
      Char.isWhitespace).reverse)

/-- Rust `version.chars().any(|c| c.is_numeric())`: modelled with
`Char.isDigit` — the inputs in play are ASCII, where `is_numeric` and an
ASCII-digit test agree. -/
def strContainsNumeric (s : String) : Bool :=
  s.data.any Char.isDigit

/-- Equality of modelled `Result` values is decidable, so that concrete
runs can be checked by evaluation. -/
instance {e a : Type} [DecidableEq e] [DecidableEq a] : DecidableEq (Except e a) := fun x y =>
  match x, y with
  | .ok u, .ok v =>
    if h : u = v then isTrue (by rw [h]) else isFalse (fun hc => h (by cases hc; rfl))
  | .error u, .error v =>
    if h : u = v then isTrue (by rw [h]) else isFalse (fun hc => h (by cases hc; rfl))
  | .ok _, .error _ => isFalse (fun hc => Except.noConfusion hc)
  | .error _, .ok _ => isFalse (fun hc => Except.noConfusion hc)

/-- `ProjectVersions` from main.rs: detected or inferred version
information for a project. -/
structure ProjectVersions where
  rust_version : Option String
  solana_version : Option String
  anchor_version : Option String
  source : Option String
deriving DecidableEq, Repr

/-- `RustToolchainSpec` from main.rs: the `toolchain` table of a
rust-toolchain.toml file. -/
structure RustToolchainSpec where
  channel : String
deriving DecidableEq, Repr

/-- `RustToolchain` from main.rs: structure of a rust-toolchain.toml file. -/
structure RustToolchain where
  toolchain : RustToolchainSpec
deriving DecidableEq, Repr

/-- `DependencySpec` from main.rs.  The `Detailed` variant keeps only the
`version` field; the `_other` map of ignored extra fields is dropped. -/
inductive DependencySpec where
  | Simple (version : String)
  | Detailed (version : Option String)
deriving DecidableEq, Repr

/-- `Dependencies` from main.rs: the tracked dependency entries of a
Cargo.toml dependencies table. -/
structure Dependencies where
  solana_program : Option DependencySpec
  anchor_lang : Option DependencySpec
  anchor_spl : Option DependencySpec
deriving DecidableEq, Repr

/-- `RUST_TOOLCHAIN_FILES` from main.rs. -/
def RUST_TOOLCHAIN_FILES : List String := ["rust-toolchain", "rust-toolchain.toml"]

/-- `SKIP_DIRECTORIES` from main.rs. -/
def SKIP_DIRECTORIES : List String :=
  ["node_modules", "target", ".git", "dist", "build", ".idea", ".vscode", "coverage"]

/-- `MAX_RUST_TOOLCHAIN_FILE_SIZE` from main.rs (bytes). -/
def MAX_RUST_TOOLCHAIN_FILE_SIZE : Nat := 10000

/-- `LATEST_COMPATIBILITY_INDEX` from main.rs. -/
def LATEST_COMPATIBILITY_INDEX : Nat := 0

/-- `ProjectVersions::needs_more_info`: true if any version field is
missing. -/
def ProjectVersions.needs_more_info (self : ProjectVersions) : Bool :=
  self.rust_version.isNone || self.solana_version.isNone || self.anchor_version.isNone

/-- `ProjectVersions::update_from`: fills fields that are currently `None`
from `other`; the solana field additionally rejects the literal `"*"`
(Rust: `other.solana_version.as_ref().is_none_or(|v| v != "*")`). -/
def ProjectVersions.update_from (self other : ProjectVersions) : ProjectVersions :=
  let self :=
    if self.rust_version.isNone && other.rust_version.isSome then
      { self with rust_version := other.rust_version, source := other.source }
    else self
  let self :=
    if self.solana_version.isNone && other.solana_version.isSome &&
        (match other.solana_version with
         | none => true
         | some v => v != "*") then
      { self with solana_version := other.solana_version }
    else self
  if self.anchor_version.isNone && other.anchor_version.isSome then
    { self with anchor_version := other.anchor_version }
  else self

/-- `should_skip_directory` from main.rs. -/
def should_skip_directory (dir_name : String) : Bool :=
  SKIP_DIRECTORIES.contains dir_name

/-- `get_version_from_spec` from main.rs. -/
def get_version_from_spec : DependencySpec → Option String
  | .Simple version => some version
  | .Detailed version => version

/-- `update_versions_from_dependencies` from main.rs: fills unset fields of
`versions` from a parsed dependencies table, with `anchor-spl` as fallback
for the anchor version. -/
def update_versions_from_dependencies (versions : ProjectVersions)
    (deps : Dependencies) : ProjectVersions :=
  let versions :=
    if versions.solana_version.isNone then
      match deps.solana_program with
      | some solana_spec => { versions with solana_version := get_version_from_spec solana_spec }
      | none => versions
    else versions
  let versions :=
    if versions.anchor_version.isNone then
      match deps.anchor_lang with
      | some anchor_spec => { versions with anchor_version := get_version_from_spec anchor_spec }
      | none => versions
    else versions
  if versions.anchor_version.isNone then
    match deps.anchor_spl with
    | some anchor_spl_spec =>
        { versions with anchor_version := get_version_from_spec anchor_spl_spec }
    | none => versions
  else versions

/-- `parse_rust_toolchain` from main.rs.  `tomlParse` abstracts
`toml::from_str::<RustToolchain>` (the external crate): `some t` when the
content deserialises, `none` when it does not.  The plain-text fallback
trims the content and accepts it only if it contains a numeric character
(Rust `char::is_numeric`; modelled by `Char.isDigit` — the inputs in play
are ASCII). -/
def parse_rust_toolchain (tomlParse : String → Option RustToolchain)
    (content : String) : Except String String :=
  match tomlParse content with
  | some toolchain => .ok toolchain.toolchain.channel
  | none =>
    let version := strTrim content
    if strContainsNumeric version then .ok version
    else .error "Invalid rust-toolchain format"

/-- The rust-toolchain file loop at the top of `detect_versions` in main.rs:
walks the candidate file names, and for the FIRST name that exists reads it,
errors if it is oversized, otherwise records the parsed version (or nothing,
when parsing fails) and breaks out of the loop.  `lookup` maps a file name
to its contents when the file exists in the probed directory (read errors
are not modelled).  Returns `(rust_version, source)`. -/
def detect_rust_toolchain_loop (tomlParse : String → Option RustToolchain)
    (lookup : String → Option String) :
    List String → Except String (Option String × Option String)
  | [] => .ok (none, none)
  | filename :: rest =>
    match lookup filename with
    | some content =>
      if MAX_RUST_TOOLCHAIN_FILE_SIZE < content.utf8ByteSize then
        .error "File is too large (>10KB)"
      else
        match parse_rust_toolchain tomlParse content with
        | .ok version => .ok (some version, some filename)
        | .error _ => .ok (none, none)
    | none => detect_rust_toolchain_loop tomlParse lookup rest

/-- `COMPATIBILITY_RULES` from main.rs: (Solana, Anchor, Rust), newest to
oldest. -/
def COMPATIBILITY_RULES : List (String × String × String) :=
  [("2.1.0", "0.31.0", "1.84.1"),
   ("1.18.17", "0.30.1", "1.76.0"),
   ("1.18.8", "0.30.0", "1.76.0"),
   ("1.17.0", "0.29.0", "1.69.0"),
   ("1.16.0", "0.28.0", "1.68.0"),
   ("1.15.0", "0.27.0", "1.67.0"),
   ("1.14.0", "0.26.0", "1.66.0")]

/-- `COMPATIBILITY_RULES[LATEST_COMPATIBILITY_INDEX]`: the newest rule. -/
def latestRule : String × String × String :=
  COMPATIBILITY_RULES.get ⟨LATEST_COMPATIBILITY_INDEX, by decide⟩

/-- `is_solana_project` from main.rs. -/
def is_solana_project (versions : ProjectVersions) : Bool :=
  versions.solana_version.isSome || versions.anchor_version.isSome

/-- `clean_version` from main.rs.  Each Rust `trim_start_matches(c)` call
removes ALL leading occurrences of the character `c` (the pattern is
matched repeatedly), so the four calls drop the maximal leading run of
`^`, then of `~`, then of `=`, then of `v`, in that order. -/
def clean_version (version : String) : String :=
  String.mk ((((version.data.dropWhile (· = '^')).dropWhile
      (· = '~')).dropWhile (· = '=')).dropWhile (· = 'v'))

/-- The compatibility-table matching step of `infer_missing_versions`
(main.rs lines 549-578): if a solana version is present, scan the rules in
order and at the first rule whose solana entry is a prefix of the cleaned
version fill the missing anchor/rust fields, then stop; otherwise do the
symmetric scan on the anchor version. -/
def matchRules (versions : ProjectVersions) : ProjectVersions :=
  match versions.solana_version with
  | some solana_ref =>
    let solana_ver := clean_version solana_ref
    match COMPATIBILITY_RULES.find? (fun r => strStartsWith solana_ver r.fst) with
    | some (_, anchor, rust) =>
      let versions :=
        if versions.anchor_version.isNone then
          { versions with anchor_version := some anchor }
        else versions
      if versions.rust_version.isNone then
        { versions with rust_version := some rust }
      else versions
    | none => versions
  | none =>
    match versions.anchor_version with
    | some anchor_ref =>
      let anchor_ver := clean_version anchor_ref
      match COMPATIBILITY_RULES.find? (fun r => strStartsWith anchor_ver r.snd.fst) with
      | some (solana, _, rust) =>
        let versions :=
          if versions.solana_version.isNone then
            { versions with solana_version := some solana }
          else versions
        if versions.rust_version.isNone then
          { versions with rust_version := some rust }
        else versions
      | none => versions
    | none => versions

/-- The default backstop of `infer_missing_versions` (main.rs lines
580-598): a solana field that is unset or the literal `"*"` becomes the
newest rule's solana version; an unset rust field becomes the newest rule's
rust version; the anchor field is never touched here.  The Rust condition
is `is_none() || is_none_or(|v| v == "*")`, kept verbatim (the first
disjunct is redundant). -/
def applyDefaults (versions : ProjectVersions) : ProjectVersions :=
  let versions :=
    if versions.solana_version.isNone ||
        (match versions.solana_version with
         | none => true
         | some v => v == "*") then
      { versions with solana_version := some latestRule.fst }
    else versions
  if versions.rust_version.isNone then
    { versions with rust_version := some latestRule.snd.snd }
  else versions

/-- First line of the error text of `infer_missing_versions` (the
file-expectation hint lines are elided). -/
def notSolanaProjectMsg : String :=
  "This directory does not appear to be a Solana project. No Solana or Anchor version information found."

/-- `infer_missing_versions` from main.rs.  Rust signature is
`fn(&mut ProjectVersions) -> Result<()>`; modelled as a pair of the result
value and the state the struct is left in (unchanged on the error path,
which returns before any mutation). -/
def infer_missing_versions (versions : ProjectVersions) :
    Except String Unit × ProjectVersions :=
  if !(is_solana_project versions) then
    (.error notSolanaProjectMsg, versions)
  else
    (.ok (), applyDefaults (matchRules versions))

/-- A directory tree for the recursive walk: its name, the
`ProjectVersions` that `detect_versions` would produce for its manifest
files (the probe result), and its subdirectories.  Non-directory entries
are skipped by the walk, so only subdirectories are modelled. -/
inductive FsTree where
  | node (name : String) (probe : ProjectVersions) (children : List FsTree)

/-- Name of the directory. -/
def FsTree.name : FsTree → String
  | .node n _ _ => n

/-- Probe result (`detect_versions`) of the directory. -/
def FsTree.probe : FsTree → ProjectVersions
  | .node _ p _ => p

/-- Subdirectories of the directory. -/
def FsTree.children : FsTree → List FsTree
  | .node _ _ c => c

/-- The entry loop of `search_subdirectories` from main.rs, over the list
of subdirectory entries: skip deny-listed names, probe and merge, recurse
while information is missing, and break out of the loop as soon as all
versions are known.  Directory read errors are not modelled. -/
def searchChildren (versions : ProjectVersions) : List FsTree → ProjectVersions
  | [] => versions
  | FsTree.node name probe children :: rest =>
    if should_skip_directory name then searchChildren versions rest
    else
      let v1 := versions.update_from probe
      let v2 := if v1.needs_more_info then searchChildren v1 children else v1
      if v2.needs_more_info then searchChildren v2 rest else v2

/-- `search_subdirectories` from main.rs: runs the entry loop on the
directory's children. -/
def search_subdirectories (versions : ProjectVersions) (dir : FsTree) :
    ProjectVersions :=
  searchChildren versions dir.children

/-- `detect_versions_recursive` from main.rs: probe the root, search
subdirectories while information is missing, then infer the rest. -/
def detect_versions_recursive (project : FsTree) :
    Except String Unit × ProjectVersions :=
  let versions := project.probe
  let versions :=
    if versions.needs_more_info then search_subdirectories versions project
    else versions
  infer_missing_versions versions

/-- A probe result with no version information at all. -/
def isEmptyFacts (versions : ProjectVersions) : Bool :=
  versions.rust_version.isNone && versions.solana_version.isNone &&
    versions.anchor_version.isNone

/-- Every directory of the forest reachable without passing through a
deny-listed directory name probes to an empty result: the tree's only
manifest information (if any) is inside deny-listed directories. -/
def visibleEmptyList : List FsTree → Bool
  | [] => true
  | FsTree.node name probe children :: rest =>
    (should_skip_directory name || (isEmptyFacts probe && visibleEmptyList children)) &&
      visibleEmptyList rest

/-! ## Theorems -/

/-- C1: with only `solana_version = "1.18.17"` set, `infer_missing_versions`
succeeds and fills `anchor_version = "0.30.1"` and `rust_version = "1.76.0"`,
the first (and exact) compatibility rule whose solana entry is a prefix of
the cleaned platform version in the table's newest-first order. -/
theorem infer_fills_anchor_rust_from_solana_1_18_17 :
    infer_missing_versions ⟨none, some "1.18.17", none, none⟩ =
      (.ok (), ⟨some "1.76.0", some "1.18.17", some "0.30.1", none⟩) ∧
    COMPATIBILITY_RULES.find? (fun r => strStartsWith (clean_version "1.18.17") r.fst) =
      some ("1.18.17", "0.30.1", "1.76.0") :=
  ⟨by decide, by decide⟩

/-- C2: `infer_missing_versions` reports the not-a-Solana-project error if
and only if both `solana_version` and `anchor_version` are unset (a set
`rust_version` does not prevent it), and on the error path the
`ProjectVersions` value is returned unchanged. -/
theorem infer_errors_iff_no_indicators (v : ProjectVersions) :
    ((infer_missing_versions v).fst = .error notSolanaProjectMsg ↔
      (v.solana_version = none ∧ v.anchor_version = none)) ∧
    (v.solana_version = none → v.anchor_version = none →
      (infer_missing_versions v).snd = v) := by
  obtain ⟨r, s, a, src⟩ := v
  cases s <;> cases a <;>
    simp [infer_missing_versions, is_solana_project]

theorem infer_errors_iff_no_indicators_witness :
    (infer_missing_versions ⟨some "1.76.0", none, none, none⟩).fst =
      .error notSolanaProjectMsg ∧
    (infer_missing_versions ⟨some "1.76.0", none, none, none⟩).snd =
      ⟨some "1.76.0", none, none, none⟩ :=
  ⟨((infer_errors_iff_no_indicators ⟨some "1.76.0", none, none, none⟩).1).2 ⟨rfl, rfl⟩,
   (infer_errors_iff_no_indicators ⟨some "1.76.0", none, none, none⟩).2 rfl rfl⟩

/-- C3: `update_from` never overwrites a version field that is already set:
each of the three version fields keeps its previous value whenever it was
`some` before the merge, for every pair of fact records. -/
theorem update_from_never_overwrites (run inc : ProjectVersions) :
    (run.rust_version.isSome = true →
      (run.update_from inc).rust_version = run.rust_version) ∧
    (run.solana_version.isSome = true →
      (run.update_from inc).solana_version = run.solana_version) ∧
    (run.anchor_version.isSome = true →
      (run.update_from inc).anchor_version = run.anchor_version) := by
  obtain ⟨r, s, a, src⟩ := run
  obtain ⟨r2, s2, a2, src2⟩ := inc
  cases r <;> cases s <;> cases a <;>
    simp [ProjectVersions.update_from] <;> split_ifs <;> simp_all

theorem update_from_never_overwrites_witness :
    (Option.isSome (some "1.69.0") = true ∧
      Option.isSome (some "1.14.0") = true ∧
      Option.isSome (some "0.26.0") = true) ∧
    ((ProjectVersions.mk (some "1.69.0") (some "1.14.0") (some "0.26.0") none).update_from
        ⟨some "1.84.1", some "2.1.0", some "0.31.0", some "sub/Cargo.toml"⟩).rust_version =
      some "1.69.0" ∧
    ((ProjectVersions.mk (some "1.69.0") (some "1.14.0") (some "0.26.0") none).update_from
        ⟨some "1.84.1", some "2.1.0", some "0.31.0", some "sub/Cargo.toml"⟩).solana_version =
      some "1.14.0" ∧
    ((ProjectVersions.mk (some "1.69.0") (some "1.14.0") (some "0.26.0") none).update_from
        ⟨some "1.84.1", some "2.1.0", some "0.31.0", some "sub/Cargo.toml"⟩).anchor_version =
      some "0.26.0" :=
  ⟨⟨rfl, rfl, rfl⟩,
   (update_from_never_overwrites _ _).1 rfl,
   (update_from_never_overwrites _ _).2.1 rfl,
   (update_from_never_overwrites _ _).2.2 rfl⟩

/-- C4: an incoming `solana_version` that is the literal `"*"` never changes
the running record's solana field (an unset field stays unset), so a
wildcard arriving through the merge can never satisfy the completeness
check. -/
theorem update_from_ignores_wildcard_solana (run inc : ProjectVersions) :
    (inc.solana_version = some "*" →
      (run.update_from inc).solana_version = run.solana_version) ∧
    (run.solana_version = none → inc.solana_version = some "*" →
      (run.update_from inc).needs_more_info = true) := by
  obtain ⟨r, s, a, src⟩ := run
  obtain ⟨r2, s2, a2, src2⟩ := inc
  constructor
  · rintro rfl
    cases s <;> simp [ProjectVersions.update_from] <;> split_ifs <;> simp_all
  · rintro rfl rfl
    simp [ProjectVersions.update_from, ProjectVersions.needs_more_info]
    split_ifs <;> simp_all

theorem update_from_ignores_wildcard_solana_witness :
    ((ProjectVersions.mk none none none none).update_from
        ⟨some "1.76.0", some "*", some "0.30.1", some "sub/Cargo.toml"⟩).solana_version =
      none ∧
    ((ProjectVersions.mk none none none none).update_from
        ⟨some "1.76.0", some "*", some "0.30.1", some "sub/Cargo.toml"⟩).needs_more_info =
      true :=
  ⟨(update_from_ignores_wildcard_solana ⟨none, none, none, none⟩ _).1 rfl,
   (update_from_ignores_wildcard_solana ⟨none, none, none, none⟩ _).2 rfl rfl⟩

/-- Decomposition of `List.dropWhile`: what is dropped is a prefix all of
whose elements satisfy the predicate. -/
theorem dropWhile_decomp (p : Char → Bool) (l : List Char) :
    ∃ t, l = t ++ l.dropWhile p ∧ ∀ c ∈ t, p c = true :=
  ⟨l.takeWhile p, (List.takeWhile_append_dropWhile (p := p) (l := l)).symm,
   fun _ hc => List.mem_takeWhile_imp hc⟩

/-- C5 counterexample: `clean_version` removes BOTH leading `^` characters
of `"^^1.2.3"` (each Rust `trim_start_matches` call strips a maximal run,
not a single character), refuting the claim that the second `^` is kept. -/
theorem clean_version_strips_both_carets :
    clean_version "^^1.2.3" = "1.2.3" ∧ clean_version "^^1.2.3" ≠ "^1.2.3" := by
  decide

/-- C5 amended: `clean_version` removes a leading run of `^` characters,
then a run of `~`, then of `=`, then of `v`, in that fixed order and
nothing else: the result is a suffix of the input whose dropped prefix
consists only of those four characters, and a second leading `^` is removed
just like the first. -/
theorem clean_version_strips_marker_runs (s : String) :
    (∃ pre : List Char, s.data = pre ++ (clean_version s).data ∧
        ∀ c ∈ pre, c = '^' ∨ c = '~' ∨ c = '=' ∨ c = 'v') ∧
    clean_version (String.mk ('^' :: s.data)) =
      clean_version (String.mk ('^' :: '^' :: s.data)) := by
  constructor
  · obtain ⟨t1, h1, m1⟩ := dropWhile_decomp (fun c => decide (c = '^')) s.data
    obtain ⟨t2, h2, m2⟩ := dropWhile_decomp (fun c => decide (c = '~'))
      (s.data.dropWhile (fun c => decide (c = '^')))
    obtain ⟨t3, h3, m3⟩ := dropWhile_decomp (fun c => decide (c = '='))
      ((s.data.dropWhile (fun c => decide (c = '^'))).dropWhile (fun c => decide (c = '~')))
    obtain ⟨t4, h4, m4⟩ := dropWhile_decomp (fun c => decide (c = 'v'))
      (((s.data.dropWhile (fun c => decide (c = '^'))).dropWhile
        (fun c => decide (c = '~'))).dropWhile (fun c => decide (c = '=')))
    refine ⟨t1 ++ t2 ++ t3 ++ t4, ?_, ?_⟩
    · have hdata : (clean_version s).data =
          (((s.data.dropWhile (fun c => decide (c = '^'))).dropWhile
            (fun c => decide (c = '~'))).dropWhile
              (fun c => decide (c = '='))).dropWhile (fun c => decide (c = 'v')) := rfl
      have hchain : s.data =
          t1 ++ (t2 ++ (t3 ++ (t4 ++ (clean_version s).data))) := by
        rw [hdata, ← h4, ← h3, ← h2, ← h1]
      rw [hchain]
      simp [List.append_assoc]
    · intro c hc
      simp only [List.mem_append] at hc
      rcases hc with ((hc | hc) | hc) | hc
      · exact Or.inl (by simpa using m1 c hc)
      · exact Or.inr (Or.inl (by simpa using m2 c hc))
      · exact Or.inr (Or.inr (Or.inl (by simpa using m3 c hc)))
      · exact Or.inr (Or.inr (Or.inr (by simpa using m4 c hc)))
  · rfl

/-- C6: the default backstop replaces a solana field that is unset or the
literal `"*"` with the newest rule's solana version and an unset rust field
with the newest rule's rust version, and never touches the anchor field; on
the success path `infer_missing_versions` is exactly the table-matching
step followed by this backstop, so an unset anchor field with no matching
table row stays unset in the final result. -/
theorem infer_backstop_behavior :
    (∀ m : ProjectVersions,
      (applyDefaults m).solana_version =
        (if m.solana_version = none ∨ m.solana_version = some "*"
         then some latestRule.fst else m.solana_version) ∧
      (applyDefaults m).rust_version =
        (if m.rust_version = none then some latestRule.snd.snd else m.rust_version) ∧
      (applyDefaults m).anchor_version = m.anchor_version) ∧
    (∀ v : ProjectVersions, is_solana_project v = true →
      infer_missing_versions v = (.ok (), applyDefaults (matchRules v))) ∧
    (∀ (v : ProjectVersions) (s : String), v.solana_version = some s →
      v.anchor_version = none →
      COMPATIBILITY_RULES.find? (fun r => strStartsWith (clean_version s) r.fst) = none →
      ((infer_missing_versions v).snd).anchor_version = none) := by
  have hA : ∀ m : ProjectVersions,
      (applyDefaults m).solana_version =
        (if m.solana_version = none ∨ m.solana_version = some "*"
         then some latestRule.fst else m.solana_version) ∧
      (applyDefaults m).rust_version =
        (if m.rust_version = none then some latestRule.snd.snd else m.rust_version) ∧
      (applyDefaults m).anchor_version = m.anchor_version := by
    intro m
    obtain ⟨r, s, a, src⟩ := m
    cases r <;> cases s <;> simp [applyDefaults] <;> split_ifs <;> simp_all
  refine ⟨hA, ?_, ?_⟩
  · intro v h
    simp [infer_missing_versions, h]
  · intro v s hs ha hfind
    have h1 : is_solana_project v = true := by
      simp [is_solana_project, hs]
    have h2 : (infer_missing_versions v).snd = applyDefaults (matchRules v) := by
      simp [infer_missing_versions, h1]
    rw [h2, (hA (matchRules v)).2.2]
    obtain ⟨r, sv, a, src⟩ := v
    simp only at hs ha
    subst hs
    subst ha
    simp [matchRules, hfind]

theorem infer_backstop_behavior_witness :
    (applyDefaults ⟨none, some "*", some "0.30.1", none⟩).solana_version = some "2.1.0" ∧
    (applyDefaults ⟨none, some "*", some "0.30.1", none⟩).rust_version = some "1.84.1" ∧
    (applyDefaults ⟨none, some "*", some "0.30.1", none⟩).anchor_version = some "0.30.1" ∧
    (is_solana_project ⟨none, some "9.9.9", none, none⟩ = true ∧
      COMPATIBILITY_RULES.find?
        (fun r => strStartsWith (clean_version "9.9.9") r.fst) = none) ∧
    ((infer_missing_versions ⟨none, some "9.9.9", none, none⟩).snd).anchor_version = none :=
  ⟨((infer_backstop_behavior.1 ⟨none, some "*", some "0.30.1", none⟩).1).trans (by decide),
   ((infer_backstop_behavior.1 ⟨none, some "*", some "0.30.1", none⟩).2.1).trans (by decide),
   (infer_backstop_behavior.1 ⟨none, some "*", some "0.30.1", none⟩).2.2,
   ⟨rfl, by decide⟩,
   infer_backstop_behavior.2.2 ⟨none, some "9.9.9", none, none⟩ "9.9.9" rfl rfl (by decide)⟩

/-- C7: `parse_rust_toolchain` returns the TOML `toolchain.channel` value
exactly when the content deserialises; otherwise it returns the trimmed
content exactly when that contains a numeric character and a format error
otherwise, and on a format error the calling file loop leaves both the
version and the source unset instead of failing. -/
theorem parse_rust_toolchain_spec :
    (∀ (tomlParse : String → Option RustToolchain) (content : String) (t : RustToolchain),
      tomlParse content = some t →
      parse_rust_toolchain tomlParse content = .ok t.toolchain.channel) ∧
    (∀ (tomlParse : String → Option RustToolchain) (content : String),
      tomlParse content = none →
      parse_rust_toolchain tomlParse content =
        (if strContainsNumeric (strTrim content) then .ok (strTrim content)
         else .error "Invalid rust-toolchain format")) ∧
    (∀ (tomlParse : String → Option RustToolchain) (lookup : String → Option String)
       (filename : String) (rest : List String) (content e : String),
      lookup filename = some content →
      content.utf8ByteSize ≤ MAX_RUST_TOOLCHAIN_FILE_SIZE →
      parse_rust_toolchain tomlParse content = .error e →
      detect_rust_toolchain_loop tomlParse lookup (filename :: rest) = .ok (none, none)) := by
  refine ⟨?_, ?_, ?_⟩
  · intro tp c t h
    simp [parse_rust_toolchain, h]
  · intro tp c h
    simp [parse_rust_toolchain, h]
  · intro tp lookup f rest c e hl hsize hparse
    simp [detect_rust_toolchain_loop, hl, hparse, Nat.not_lt.mpr hsize]

theorem parse_rust_toolchain_spec_witness :
    ((fun _ => some ⟨⟨"1.76.0"⟩⟩ : String → Option RustToolchain) "channel" =
        some ⟨⟨"1.76.0"⟩⟩ ∧
      parse_rust_toolchain (fun _ => some ⟨⟨"1.76.0"⟩⟩) "channel" = .ok "1.76.0") ∧
    parse_rust_toolchain (fun _ => none) "nightly-2023-04-01" = .ok "nightly-2023-04-01" ∧
    parse_rust_toolchain (fun _ => none) "stable" = .error "Invalid rust-toolchain format" ∧
    detect_rust_toolchain_loop (fun _ => none) (fun _ => some "stable")
      ("rust-toolchain" :: ["rust-toolchain.toml"]) = .ok (none, none) :=
  ⟨⟨rfl, parse_rust_toolchain_spec.1 (fun _ => some ⟨⟨"1.76.0"⟩⟩) "channel" ⟨⟨"1.76.0"⟩⟩ rfl⟩,
   (parse_rust_toolchain_spec.2.1 (fun _ => none) "nightly-2023-04-01" rfl).trans (by decide),
   (parse_rust_toolchain_spec.2.1 (fun _ => none) "stable" rfl).trans (by decide),
   parse_rust_toolchain_spec.2.2 (fun _ => none) (fun _ => some "stable")
     "rust-toolchain" ["rust-toolchain.toml"] "stable" "Invalid rust-toolchain format"
     rfl (by decide) (by decide)⟩

/-- C10: the toolchain-file loop consults at most the first existing file
name: when `"rust-toolchain"` exists its result is independent of every
other file (in particular `"rust-toolchain.toml"` is never read), and when
parsing the first file fails the loop still stops there, leaving both the
version and the source unset. -/
theorem first_toolchain_file_shadows_second :
    (∀ (tomlParse : String → Option RustToolchain) (lookup : String → Option String)
       (content : String),
      lookup "rust-toolchain" = some content →
      detect_rust_toolchain_loop tomlParse lookup RUST_TOOLCHAIN_FILES =
        detect_rust_toolchain_loop tomlParse
          (fun f => if f = "rust-toolchain" then some content else none)
          RUST_TOOLCHAIN_FILES) ∧
    (∀ (tomlParse : String → Option RustToolchain) (lookup : String → Option String)
       (content e : String),
      lookup "rust-toolchain" = some content →
      content.utf8ByteSize ≤ MAX_RUST_TOOLCHAIN_FILE_SIZE →
      parse_rust_toolchain tomlParse content = .error e →
      detect_rust_toolchain_loop tomlParse lookup RUST_TOOLCHAIN_FILES =
        .ok (none, none)) := by
  constructor
  · intro tp lookup content hl
    simp [RUST_TOOLCHAIN_FILES, detect_rust_toolchain_loop, hl]
  · intro tp lookup content e hl hsize hparse
    simp [RUST_TOOLCHAIN_FILES, detect_rust_toolchain_loop, hl, hparse,
      Nat.not_lt.mpr hsize]

theorem first_toolchain_file_shadows_second_witness :
    ((fun _ => some "stable" : String → Option String) "rust-toolchain" = some "stable" ∧
      detect_rust_toolchain_loop (fun _ => none) (fun _ => some "stable")
          RUST_TOOLCHAIN_FILES =
        detect_rust_toolchain_loop (fun _ => none)
          (fun f => if f = "rust-toolchain" then some "stable" else none)
          RUST_TOOLCHAIN_FILES) ∧
    detect_rust_toolchain_loop (fun _ => none) (fun _ => some "stable")
      RUST_TOOLCHAIN_FILES = .ok (none, none) :=
  ⟨⟨rfl, first_toolchain_file_shadows_second.1 (fun _ => none) (fun _ => some "stable")
      "stable" rfl⟩,
   first_toolchain_file_shadows_second.2 (fun _ => none) (fun _ => some "stable")
     "stable" "Invalid rust-toolchain format" rfl (by decide) (by decide)⟩

/-- C9: a direct directory probe stores a wildcard platform dependency
verbatim — `update_versions_from_dependencies` writes exactly what
`get_version_from_spec` extracts, `"*"` included — and `needs_more_info`
only tests for `none`, so a record whose solana field is `some "*"` counts
as complete and `detect_versions_recursive` skips the subtree walk
entirely when the root probe is complete. -/
theorem wildcard_counts_as_set_in_direct_probe :
    (∀ (v : ProjectVersions) (deps : Dependencies) (spec : DependencySpec),
      v.solana_version = none → deps.solana_program = some spec →
      (update_versions_from_dependencies v deps).solana_version =
        get_version_from_spec spec) ∧
    (∀ (r a : String) (src : Option String),
      (ProjectVersions.mk (some r) (some "*") (some a) src).needs_more_info = false) ∧
    (∀ (name : String) (p : ProjectVersions) (children : List FsTree),
      p.needs_more_info = false →
      detect_versions_recursive (.node name p children) = infer_missing_versions p) := by
  refine ⟨?_, ?_, ?_⟩
  · intro v deps spec hv hdep
    obtain ⟨r, sv, a, src⟩ := v
    obtain ⟨dsol, dal, dspl⟩ := deps
    simp only at hv hdep
    subst hv
    subst hdep
    cases a <;> cases dal <;> cases dspl <;>
      (simp [update_versions_from_dependencies]; try (split_ifs <;> simp_all))
  · intro r a src
    rfl
  · intro name p children h
    simp [detect_versions_recursive, search_subdirectories, FsTree.probe, h]

theorem wildcard_counts_as_set_in_direct_probe_witness :
    (update_versions_from_dependencies ⟨some "1.76.0", none, some "0.30.1", none⟩
        ⟨some (.Simple "*"), none, none⟩).solana_version = some "*" ∧
    (ProjectVersions.mk (some "1.76.0") (some "*") (some "0.30.1") none).needs_more_info =
      false ∧
    detect_versions_recursive
        (.node "root" ⟨some "1.76.0", some "*", some "0.30.1", none⟩
          [.node "programs" ⟨none, some "1.18.17", none, none⟩ []]) =
      infer_missing_versions ⟨some "1.76.0", some "*", some "0.30.1", none⟩ :=
  ⟨wildcard_counts_as_set_in_direct_probe.1 ⟨some "1.76.0", none, some "0.30.1", none⟩
      ⟨some (.Simple "*"), none, none⟩ (.Simple "*") rfl rfl,
   wildcard_counts_as_set_in_direct_probe.2.1 "1.76.0" "0.30.1" none,
   wildcard_counts_as_set_in_direct_probe.2.2 "root"
     ⟨some "1.76.0", some "*", some "0.30.1", none⟩
     [.node "programs" ⟨none, some "1.18.17", none, none⟩ []] rfl⟩

/-- Merging a probe result that found nothing changes nothing. -/
theorem update_from_empty (v p : ProjectVersions) (h : isEmptyFacts p = true) :
    v.update_from p = v := by
  obtain ⟨r, s, a, src⟩ := p
  simp [isEmptyFacts] at h
  obtain ⟨⟨rfl, rfl⟩, rfl⟩ := h
  simp [ProjectVersions.update_from]

set_option maxHeartbeats 2000000 in
/-- Strong-induction core: the walk over a forest whose every directory
reachable outside the deny list probes empty leaves the running facts
unchanged. -/
theorem searchChildren_visibleEmpty_aux (n : Nat) :
    ∀ l : List FsTree, sizeOf l ≤ n → ∀ v : ProjectVersions,
      visibleEmptyList l = true → searchChildren v l = v := by
  induction n with
  | zero =>
    intro l hl
    exfalso
    cases l <;> simp_arith at hl
  | succ n ih =>
    intro l hl v hvis
    match l with
    | [] => exact searchChildren.eq_1 v
    | FsTree.node name probe children :: rest =>
      have hsize : sizeOf children ≤ n ∧ sizeOf rest ≤ n := by
        simp_arith at hl
        omega
      rw [visibleEmptyList.eq_2] at hvis
      simp only [Bool.and_eq_true, Bool.or_eq_true] at hvis
      obtain ⟨hhead, hrest⟩ := hvis
      rw [searchChildren.eq_2]
      by_cases hskip : should_skip_directory name = true
      · rw [if_pos hskip]
        exact ih rest hsize.2 v hrest
      · rw [if_neg hskip]
        have hempty : isEmptyFacts probe = true ∧ visibleEmptyList children = true := by
          rcases hhead with h | h
          · exact absurd h hskip
          · exact h
        have h1 : ProjectVersions.update_from v probe = v :=
          update_from_empty v probe hempty.1
        have h2 : searchChildren v children = v := ih children hsize.1 v hempty.2
        have h3 : searchChildren v rest = v := ih rest hsize.2 v hrest
        simp only [h1, h2, h3, ite_self]

/-- The walk leaves the running facts unchanged on a visible-empty forest. -/
theorem searchChildren_of_visibleEmpty (l : List FsTree) (v : ProjectVersions)
    (h : visibleEmptyList l = true) : searchChildren v l = v :=
  searchChildren_visibleEmpty_aux (sizeOf l) l le_rfl v h

/-- C8: a deny-listed subdirectory is dropped from the walk entirely — the
result over any entry list equals the result with that entry removed, at
any position and hence (by the recursive structure) at every level — and a
tree whose manifest information lies only inside deny-listed directories
ends in the not-a-recognized-project error. -/
theorem skip_directories_never_probed :
    (∀ (v : ProjectVersions) (pre : List FsTree) (c : FsTree) (post : List FsTree),
      should_skip_directory c.name = true →
      searchChildren v (pre ++ c :: post) = searchChildren v (pre ++ post)) ∧
    (∀ t : FsTree, isEmptyFacts t.probe = true → visibleEmptyList t.children = true →
      (detect_versions_recursive t).fst = .error notSolanaProjectMsg) := by
  constructor
  · intro v pre c post h
    obtain ⟨cn, cp, cch⟩ := c
    simp only [FsTree.name] at h
    induction pre generalizing v with
    | nil =>
      simp only [List.nil_append]
      rw [searchChildren.eq_2, if_pos h]
    | cons hd pre ih =>
      obtain ⟨n, p, ch⟩ := hd
      simp only [List.cons_append]
      rw [searchChildren.eq_2, searchChildren.eq_2]
      by_cases hskip : should_skip_directory n = true
      · rw [if_pos hskip, if_pos hskip]
        exact ih v
      · rw [if_neg hskip, if_neg hskip]
        simp only
        by_cases h2 : (if (v.update_from p).needs_more_info = true
            then searchChildren (v.update_from p) ch
            else v.update_from p).needs_more_info = true
        · rw [if_pos h2, if_pos h2]
          exact ih _
        · rw [if_neg h2, if_neg h2]
  · intro t h1 h2
    obtain ⟨name, p, ch⟩ := t
    obtain ⟨r, s, a, src⟩ := p
    simp only [FsTree.probe] at h1
    simp only [FsTree.children] at h2
    simp [isEmptyFacts] at h1
    obtain ⟨⟨rfl, rfl⟩, rfl⟩ := h1
    have hsearch : searchChildren ⟨none, none, none, src⟩ ch = ⟨none, none, none, src⟩ :=
      searchChildren_of_visibleEmpty ch _ h2
    simp [detect_versions_recursive, search_subdirectories, FsTree.probe, FsTree.children,
      ProjectVersions.needs_more_info, hsearch, infer_missing_versions, is_solana_project]

theorem skip_directories_never_probed_witness :
    should_skip_directory
      (FsTree.name (.node "node_modules"
        ⟨some "1.76.0", some "1.18.17", some "0.30.1", none⟩ [])) = true ∧
    searchChildren ⟨none, none, none, none⟩
        ([] ++ FsTree.node "node_modules"
          ⟨some "1.76.0", some "1.18.17", some "0.30.1", none⟩ [] :: []) =
      searchChildren ⟨none, none, none, none⟩ ([] ++ []) ∧
    (detect_versions_recursive
        (.node "root" ⟨none, none, none, none⟩
          [.node "node_modules"
            ⟨some "1.76.0", some "1.18.17", some "0.30.1", none⟩ []])).fst =
      .error notSolanaProjectMsg := by
  refine ⟨by decide, ?_, ?_⟩
  · exact skip_directories_never_probed.1 ⟨none, none, none, none⟩ []
      (.node "node_modules" ⟨some "1.76.0", some "1.18.17", some "0.30.1", none⟩ []) []
      (by decide)
  · refine skip_directories_never_probed.2
      (.node "root" ⟨none, none, none, none⟩
        [.node "node_modules" ⟨some "1.76.0", some "1.18.17", some "0.30.1", none⟩ []])
      (by decide) ?_
    show visibleEmptyList
      [FsTree.node "node_modules"
        ⟨some "1.76.0", some "1.18.17", some "0.30.1", none⟩ []] = true
    rw [visibleEmptyList.eq_2]
    simp only [visibleEmptyList.eq_1]
    decide

theorem clean_version_strips_marker_runs_witness :
    (∃ pre : List Char, ("1.2" : String).data = pre ++ (clean_version "1.2").data ∧
        ∀ c ∈ pre, c = '^' ∨ c = '~' ∨ c = '=' ∨ c = 'v') ∧
    clean_version (String.mk ('^' :: ("1.2" : String).data)) =
      clean_version (String.mk ('^' :: '^' :: ("1.2" : String).data)) :=
  clean_version_strips_marker_runs "1.2"
